import Mathlib

/-!
Verification of the Event Specification Parser & Validator of the
Event-Manager-Bot repository, against its natural-language specification.

The development shallowly embeds the TypeScript sources:
`src/additionalFunctions.ts` (parseCustomDate, getWeekdayNameFromDate,
eventHasEmptyValues, checkTimeInPast, startTimebBeforeEndTime),
`src/EventDetails.ts` (extractEventdetails) and the final revision of the
event functions (createNewDiscordSchedule).  JavaScript runtime semantics
relevant to the claims are modelled explicitly: `Date` objects carry an
allocation identity because JS `==` on objects compares references while
relational operators coerce to the millisecond value; numbers obtained from
unary `+` on a string can be `NaN`; and calls that throw at runtime are
modelled with `Except`.
-/

namespace EventManagerBot

/-- A JavaScript `Date` object: the time value in milliseconds since the Unix
epoch together with an allocation identity.  JS `==` between two `Date`
objects compares references, never time values, while `<`, `>=` etc. coerce
both sides to the millisecond value. -/
structure JSDate where
  ms : Int
  objId : Nat
deriving DecidableEq, Repr

/-- JS `==` on two `Date` objects: reference equality.  Two separately
allocated `Date`s are never `==`, whatever their time values. -/
def jsDateEq (a b : JSDate) : Bool := a.objId == b.objId

/-- A JavaScript number as this code can produce from `+string`: an integer
or `NaN` (`none`).  Non-integer numerals do not occur in any claim and are
mapped to `NaN` as well. -/
abbrev JSNum := Option Int

/-- JS `==` between a number and an integer literal; false when the left side
is `NaN`. -/
def jsNumEqInt : JSNum → Int → Bool
  | none, _ => false
  | some v, n => v == n

/-- JS `>` between a number and an integer literal; false when the left side
is `NaN`. -/
def jsNumGtInt : JSNum → Int → Bool
  | none, _ => false
  | some v, n => n < v

/-- JS `<` between a number and an integer literal; false when the left side
is `NaN`. -/
def jsNumLtInt : JSNum → Int → Bool
  | none, _ => false
  | some v, n => v < n

/-- Digit test on the code point, `0x30` to `0x39`. -/
def isDigitChar (c : Char) : Bool := 48 ≤ c.toNat && c.toNat ≤ 57

/-- Numeric value of a digit character. -/
def digitVal (c : Char) : Nat := c.toNat - 48

/-- Accumulating decimal reader; fails on the first non-digit. -/
def parseNatAux : List Char → Nat → Option Nat
  | [], acc => some acc
  | c :: cs, acc =>
    if isDigitChar c then parseNatAux cs (acc * 10 + digitVal c) else none

/-- JS unary `+` on a string as used for field 8 of the input line,
modelled on the fragment it is exact for: the empty string coerces to `0`
and an optionally signed decimal integer literal to its value, exactly as
in JS.  `none` conflates `NaN` with the numeric shapes outside this
fragment (fractional, exponent, radix and Infinity literals, which JS does
coerce to numbers), so the model is only sound in the positive direction:
when it yields `some k`, JS yields a value that compares to the integer
bounds of this program like `k` does.  Theorems about a frequency field
read from an input line therefore constrain it only through `= some k`
hypotheses and never through `≠ some k` alone. -/
def jsParseNum (s : String) : JSNum :=
  match s.data with
  | [] => some 0
  | '-' :: cs => if cs.isEmpty then none else (parseNatAux cs 0).map fun n => -(n : Int)
  | '+' :: cs => if cs.isEmpty then none else (parseNatAux cs 0).map fun n => (n : Int)
  | cs => (parseNatAux cs 0).map fun n => (n : Int)

/-- Whitespace for the JS `trim` call on field 8. -/
def isJsWhitespace (c : Char) : Bool :=
  c == ' ' || c == '\t' || c == '\n' || c == '\r'

/-- JS `String.prototype.trim`: strips whitespace from both ends. -/
def jsTrim (s : String) : String :=
  ⟨((s.data.dropWhile isJsWhitespace).reverse.dropWhile isJsWhitespace).reverse⟩

/-! ### Proleptic Gregorian calendar

Day arithmetic backing the luxon calls of `parseCustomDate`.  Days are
counted from 0000-01-01; the Unix epoch is recovered by subtracting
`epochDays`. -/

/-- Gregorian leap-year rule. -/
def isLeap (y : Nat) : Bool := (y % 4 == 0 && y % 100 != 0) || y % 400 == 0

/-- Length of month `m` (1-based) of year `y`. -/
def daysInMonth (y m : Nat) : Nat :=
  if m = 2 then (if isLeap y then 29 else 28)
  else if m = 4 ∨ m = 6 ∨ m = 9 ∨ m = 11 then 30
  else 31

/-- Length of year `y`. -/
def daysInYear (y : Nat) : Nat := if isLeap y then 366 else 365

/-- Days in all years before `y`, counting from year 0. -/
def daysBeforeYear : Nat → Nat
  | 0 => 0
  | y + 1 => daysBeforeYear y + daysInYear y

/-- Days in all months of year `y` before month `m` (1-based). -/
def daysBeforeMonth (y : Nat) : Nat → Nat
  | 0 => 0
  | 1 => 0
  | m + 2 => daysBeforeMonth y (m + 1) + daysInMonth y (m + 1)

/-- Day number (from 0000-01-01) of the calendar date `y-m-d`. -/
def daysFromCivil (y m d : Nat) : Nat :=
  daysBeforeYear y + daysBeforeMonth y m + (d - 1)

/-- Day number of 1970-01-01, the Unix epoch. -/
def epochDays : Nat := daysFromCivil 1970 1 1

/-- Fuelled year search: starting at year `y` with `n` days left, steps
forward one year at a time. -/
def findYear : Nat → Nat → Nat → Nat × Nat
  | 0, y, n => (y, n)
  | fuel + 1, y, n =>
    if n < daysInYear y then (y, n) else findYear fuel (y + 1) (n - daysInYear y)

/-- Fuelled month search inside year `y`. -/
def findMonth : Nat → Nat → Nat → Nat → Nat × Nat
  | 0, _, m, n => (m, n)
  | fuel + 1, y, m, n =>
    if n < daysInMonth y m then (m, n) else findMonth fuel y (m + 1) (n - daysInMonth y m)

/-- Calendar date of a day number (inverse of `daysFromCivil` on valid
dates). -/
def civilFromDays (n : Nat) : Nat × Nat × Nat :=
  let p := findYear (n + 1) 0 n
  let q := findMonth 12 p.1 1 p.2
  (p.1, q.1, q.2 + 1)

/-- Days in the `k` consecutive years starting at `y` (proof device for the
inversion of `findYear`). -/
def sumYears (y : Nat) : Nat → Nat
  | 0 => 0
  | k + 1 => daysInYear y + sumYears (y + 1) k

/-- Days in the `k` consecutive months of year `y` starting at month `m`
(proof device for the inversion of `findMonth`). -/
def sumMonths (y m : Nat) : Nat → Nat
  | 0 => 0
  | k + 1 => daysInMonth y m + sumMonths y (m + 1) k

/-! ### Wall-clock strings -/

/-- The fields read from a `YYYY-MM-DD HH:MM` input. -/
structure WallClock where
  year : Nat
  month : Nat
  day : Nat
  hour : Nat
  minute : Nat
deriving DecidableEq, Repr

/-- Digit character of a value below 10. -/
def digitChar (n : Nat) : Char := Char.ofNat (48 + n)

/-- The regex `(\d-digit groups) YYYY-MM-DD HH:MM` anchored at both ends, as
checked by `parseCustomDate`, together with the numeric reading that
`DateTime.fromFormat` performs on a match. -/
def matchDateShape (s : String) : Option WallClock :=
  match s.data with
  | [y1, y2, y3, y4, '-', m1, m2, '-', d1, d2, ' ', h1, h2, ':', n1, n2] =>
    if isDigitChar y1 && isDigitChar y2 && isDigitChar y3 && isDigitChar y4 &&
       isDigitChar m1 && isDigitChar m2 && isDigitChar d1 && isDigitChar d2 &&
       isDigitChar h1 && isDigitChar h2 && isDigitChar n1 && isDigitChar n2 then
      some ⟨1000 * digitVal y1 + 100 * digitVal y2 + 10 * digitVal y3 + digitVal y4,
            10 * digitVal m1 + digitVal m2,
            10 * digitVal d1 + digitVal d2,
            10 * digitVal h1 + digitVal h2,
            10 * digitVal n1 + digitVal n2⟩
    else none
  | _ => none

/-- Two-digit zero-padded print. -/
def pad2 (n : Nat) : List Char := [digitChar (n / 10), digitChar (n % 10)]

/-- Four-digit zero-padded print. -/
def pad4 (n : Nat) : List Char :=
  [digitChar (n / 1000), digitChar (n / 100 % 10), digitChar (n / 10 % 10), digitChar (n % 10)]

/-- Prints a wall clock back in the `YYYY-MM-DD HH:MM` shape. -/
def printWallClock (w : WallClock) : String :=
  ⟨pad4 w.year ++ ('-' :: pad2 w.month) ++ ('-' :: pad2 w.day) ++
    (' ' :: pad2 w.hour) ++ (':' :: pad2 w.minute)⟩

/-- Wall-clock validity as luxon `DateTime.fromFormat` checks it: month and
day in calendar range, hour below 24, minute below 60. -/
def validWallClock (w : WallClock) : Bool :=
  1 ≤ w.month && w.month ≤ 12 && 1 ≤ w.day && w.day ≤ daysInMonth w.year w.month &&
    w.hour ≤ 23 && w.minute ≤ 59

/-- Local minutes since the Unix epoch of a wall clock (negative before
1970, as in luxon). -/
def wallClockMinutes (w : WallClock) : Int :=
  (daysFromCivil w.year w.month w.day * 1440 + w.hour * 60 + w.minute : Nat) -
    (epochDays * 1440 : Nat)

/-! ### Timezone database -/

/-- The IANA timezone database as luxon consults it, abstracted: which zone
names are recognized, and the UTC offset in minutes a zone applies, keyed
either by the local wall-clock minute or by the absolute minute.  The system
default zone, used when the zone argument is `undefined`, is always
recognized. -/
structure TZDB where
  recognized : String → Bool
  offsetAtLocal : String → Int → Int
  offsetAtInstant : String → Int → Int
  defaultZone : String
  default_recognized : recognized defaultZone = true

/-- A wall-clock minute is realized in a zone when the zone offset used to
interpret it is also the offset of the zone at the instant it resolves to,
i.e. the local time actually exists on the clock of that zone and resolves
round-trippably. -/
def realizedInZone (db : TZDB) (zone : String) (localMin : Int) : Prop :=
  db.offsetAtInstant zone (localMin - db.offsetAtLocal zone localMin) =
    db.offsetAtLocal zone localMin

/-! ### The source functions -/

/-- Runtime exceptions this code can raise. -/
inductive JSError where
  | typeError
  | invalidWeekdayIndex
deriving DecidableEq, Repr

/-- `parseCustomDate` (additionalFunctions.ts:32): anchored regex check, then
luxon `DateTime.fromFormat` in the given zone (`none` stands for the JS
`undefined`, which luxon replaces by the system default zone), returning
`null` on a format, calendar or zone failure and otherwise the UTC instant.
The returned `Date` object is modelled by its millisecond value alone; the
caller immediately rewraps it in a fresh `new Date(...)`.  Luxon assigns a
nonexistent-but-well-formed local time the offset `offsetAtLocal` gives it,
which is how the abstract database models the DST shifting luxon performs. -/
def parseCustomDate (db : TZDB) (dateTime : String) (tz : Option String) : Option Int :=
  match matchDateShape dateTime with
  | none => none
  | some w =>
    let zone := tz.getD db.defaultZone
    if db.recognized zone && validWallClock w then
      some ((wallClockMinutes w - db.offsetAtLocal zone (wallClockMinutes w)) * 60000)
    else none

/-- Splitting worker over character lists, fuelled for structural
termination; the fuel is the list length, always sufficient because each
step consumes at least one character. -/
def jsSplitAux (sep : List Char) : Nat → List Char → List (List Char)
  | _, [] => [[]]
  | 0, l => [l]
  | fuel + 1, c :: rest =>
    if sep.isPrefixOf (c :: rest) then
      [] :: jsSplitAux sep fuel (rest.drop (sep.length - 1))
    else
      match jsSplitAux sep fuel rest with
      | [] => [[c]]
      | h :: t => (c :: h) :: t

/-- JS `String.prototype.split` with a non-empty plain-string separator:
leftmost non-overlapping matches, the empty string yields `[""]`, and the
result always has at least one element. -/
def jsSplit (s sep : String) : List String :=
  (jsSplitAux sep.data s.data.length s.data).map fun l => ⟨l⟩

/-- The runtime record built by `extractEventdetails` (EventDetails.ts:3).
Fields read from a missing (undefined) array slot are `none`; `frequency` is
`NaN` (`none`) when field 8 is missing or non-numeric. -/
structure EventDetails where
  eventName : String
  startTime : JSDate
  endTime : JSDate
  timezone : Option String
  eventLocation : Option String
  description : Option String
  interval : Option String
  frequency : JSNum
deriving DecidableEq, Repr

/-- `extractEventdetails` (EventDetails.ts:44).  `constructionNow` is the
current time read by the `new Date()` calls of the fallback branch; `ctr` is
the next free object identity, threaded so that every `new Date(...)` gets a
fresh one.  The two date fields are parsed before the mode dispatch, exactly
as in the source, so an input with fewer than three `"; "`-separated fields
reaches `parseCustomDate` with `undefined` and the `undefined.match` call
throws a `TypeError` whatever the mode. -/
def extractEventdetails (db : TZDB) (baseString eventType : String)
    (constructionNow : Int) (ctr : Nat) : Except JSError (EventDetails × Nat) :=
  let eventInfoParts := jsSplit baseString "; "
  let eventTimezone :=
    if eventInfoParts.get? 3 = some "" then some "Europe/Amsterdam"
    else eventInfoParts.get? 3
  let eventName := (eventInfoParts.get? 0).getD ""
  match eventInfoParts.get? 1 with
  | none => .error .typeError
  | some s1 =>
    match eventInfoParts.get? 2 with
    | none => .error .typeError
    | some s2 =>
      let startTime : JSDate := ⟨(parseCustomDate db s1 eventTimezone).getD 0, ctr⟩
      let endTime : JSDate := ⟨(parseCustomDate db s2 eventTimezone).getD 0, ctr + 1⟩
      if eventType = "New Event" then
        .ok ({ eventName, startTime, endTime, timezone := eventTimezone,
               eventLocation := eventInfoParts.get? 4,
               description := eventInfoParts.get? 5,
               interval := some "", frequency := some 0 }, ctr + 2)
      else if eventType = "New Schedule" then
        let eventIntervalFrequency : JSNum :=
          match eventInfoParts.get? 7 with
          | none => none
          | some f => jsParseNum (jsTrim f)
        .ok ({ eventName, startTime, endTime, timezone := eventTimezone,
               eventLocation := eventInfoParts.get? 4,
               description := eventInfoParts.get? 5,
               interval := eventInfoParts.get? 6,
               frequency := eventIntervalFrequency }, ctr + 2)
      else
        .ok ({ eventName := "", startTime := ⟨constructionNow, ctr + 2⟩,
               endTime := ⟨constructionNow, ctr + 3⟩, timezone := some "",
               eventLocation := some "", description := some "",
               interval := some "", frequency := some 0 }, ctr + 4)

/-- `eventHasEmptyValues` (additionalFunctions.ts:122).  `freshDate` is the
`new Date()` the function allocates in its own condition; the two date
comparisons are JS `==` on objects, hence reference equality. -/
def eventHasEmptyValues (eventObject : EventDetails) (freshDate : JSDate) : Bool :=
  eventObject.eventName == "" || eventObject.description == some "" ||
  jsDateEq eventObject.endTime freshDate || eventObject.eventLocation == some "" ||
  jsNumEqInt eventObject.frequency 0 || eventObject.interval == some "" ||
  jsDateEq eventObject.startTime freshDate || eventObject.timezone == some ""

/-- Modelled from the spec: `scheduleHasEmptyValues` is imported and called
by the final revision of `createNewDiscordSchedule`, but its body is not
among the sources.  Per spec section 4.2 check 1 it is the completeness
check of recurring specifications, requiring the same non-default fields as
`eventHasEmptyValues` (additionalFunctions.ts:122) including recurrence kind
and a non-zero interval, so it is modelled with that body. -/
def scheduleHasEmptyValues (eventObject : EventDetails) (freshDate : JSDate) : Bool :=
  eventHasEmptyValues eventObject freshDate

/-- `checkTimeInPast` (additionalFunctions.ts:151): true when the time is not
strictly after the current instant.  Each call reads its own `Date.now()`,
passed here as `now`. -/
def checkTimeInPast (now : Int) (time : JSDate) : Bool :=
  if now < time.ms then false else true

/-- `startTimebBeforeEndTime` (additionalFunctions.ts:186), imported as
`startTimeBeforeEndTime` by the final revision: true exactly when
`startTime >= endTime`, the invalid range. -/
def startTimeBeforeEndTime (startTime endTime : JSDate) : Bool :=
  decide (endTime.ms ≤ startTime.ms)

/-- `Date.prototype.getDay`: day of week, 0 for Sunday through 6 for
Saturday, of the date in the local timezone of the runtime; `srvOff` is that
zone offset in minutes.  Day 0 of the epoch was a Thursday. -/
def jsGetDay (srvOff : Int) (d : JSDate) : Nat :=
  (((d.ms + srvOff * 60000) / 86400000 + 4) % 7).toNat

/-- Numeric values of the discord.js weekday enum in the order
`[Sunday, Monday, ..., Saturday]` the source array lists them: the enum
numbers Monday 0 through Sunday 6, so the array holds `[6, 0, 1, 2, 3, 4, 5]`. -/
def weekdayEnumValues : List Nat := [6, 0, 1, 2, 3, 4, 5]

/-- `getWeekdayNameFromDate` (additionalFunctions.ts:80): looks the weekday
up in the array and throws when the result is falsy.  Falsy covers an
out-of-range index (undefined) and also the value 0 itself, which is the
enum value of Monday: a Monday date therefore throws. -/
def getWeekdayNameFromDate (srvOff : Int) (date : JSDate) : Except JSError Nat :=
  match weekdayEnumValues.get? (jsGetDay srvOff date) with
  | none => .error .invalidWeekdayIndex
  | some day => if day = 0 then .error .invalidWeekdayIndex else .ok day

/-! ### The schedule pipeline -/

/-- The classified rejection reasons of spec section 7 as surfaced by the
schedule pipeline. -/
inductive Reason where
  | IncompleteSpecification
  | TimeInPast
  | EndBeforeStart
  | InvalidWeeklyInterval
  | UnsupportedRecurrence
  | UnknownRecurrenceKind (token : Option String)
deriving DecidableEq, Repr

/-- The event specification handed to the external scheduling API on
success. -/
structure CreatedSchedule where
  name : String
  startMs : Int
  endMs : Int
  kind : String
  interval : JSNum
  byWeekday : List Nat
deriving DecidableEq, Repr

/-- Observable outcome of one `createNewDiscordSchedule` invocation:
an event specification handed to the external API, a classified rejection
surfaced to the channel, or a caught runtime exception (the source wraps the
recurrence dispatch in try/catch and reports `Failed to create event`). -/
inductive ScheduleOutcome where
  | created (event : CreatedSchedule)
  | rejected (reason : Reason)
  | crashed (err : JSError)
deriving DecidableEq, Repr

/-- The validation part of the final revision of `createNewDiscordSchedule`
(part_000:139), applied to the extracted details.  `fresh` is the `Date`
allocated inside the completeness check, `now1` and `now2` the two
`Date.now()` readings of the two `checkTimeInPast` calls, `srvOff` the
runtime local zone offset used by `Date.getDay`.  For `monthly` and `yearly`
the creation call is commented out in the source and only the error message
is sent, so the outcome is the rejection; the source afterwards still falls
through to a spurious success message, which no claim observes and which is
not modelled. -/
def validateSchedule (e : EventDetails) (fresh : JSDate) (now1 now2 srvOff : Int) :
    ScheduleOutcome :=
  if scheduleHasEmptyValues e fresh then .rejected .IncompleteSpecification
  else if checkTimeInPast now1 e.startTime || checkTimeInPast now2 e.endTime then
    .rejected .TimeInPast
  else if startTimeBeforeEndTime e.startTime e.endTime then .rejected .EndBeforeStart
  else if e.interval = some "daily" then
    .created ⟨e.eventName, e.startTime.ms, e.endTime.ms, "daily", e.frequency, []⟩
  else if e.interval = some "weekly" then
    if jsNumGtInt e.frequency 2 || jsNumLtInt e.frequency 0 then
      .rejected .InvalidWeeklyInterval
    else
      match getWeekdayNameFromDate srvOff e.startTime with
      | .error err => .crashed err
      | .ok w =>
        .created ⟨e.eventName, e.startTime.ms, e.endTime.ms, "weekly", e.frequency, [w]⟩
  else if e.interval = some "monthly" then .rejected .UnsupportedRecurrence
  else if e.interval = some "yearly" then .rejected .UnsupportedRecurrence
  else .rejected (.UnknownRecurrenceKind e.interval)

/-- Modelled from the spec: the repository contains no instant-to-wall-clock
formatter, but the round-trip property of spec section 8 needs one.  Formats
an absolute instant in a zone by applying the zone offset at that instant
and printing the local wall clock in the `YYYY-MM-DD HH:MM` shape. -/
def formatInstantInZone (db : TZDB) (zone : String) (ms : Int) : String :=
  let utcMin := ms / 60000
  let localMin := utcMin + db.offsetAtInstant zone utcMin
  let absMin := localMin + (epochDays * 1440 : Nat)
  let dayN := (absMin / 1440).toNat
  let minOfDay := (absMin % 1440).toNat
  let c := civilFromDays dayN
  printWallClock ⟨c.1, c.2.1, c.2.2, minOfDay / 60, minOfDay % 60⟩

/-! ### Spec-side reference definitions

These two definitions follow the words of the spec and of the claims, to be
compared with the embedded source functions. -/

/-- The surfaced reason of the first failing check in the order the spec
states them: completeness, temporal position, ordering, recurrence
resolution; `none` when no check fails. -/
def specFirstFailingReason (e : EventDetails) (fresh : JSDate) (now1 now2 : Int) :
    Option Reason :=
  if scheduleHasEmptyValues e fresh then some .IncompleteSpecification
  else if checkTimeInPast now1 e.startTime || checkTimeInPast now2 e.endTime then
    some .TimeInPast
  else if startTimeBeforeEndTime e.startTime e.endTime then some .EndBeforeStart
  else if e.interval = some "daily" then none
  else if e.interval = some "weekly" then
    if jsNumGtInt e.frequency 2 || jsNumLtInt e.frequency 0 then
      some .InvalidWeeklyInterval
    else none
  else if e.interval = some "monthly" then some .UnsupportedRecurrence
  else if e.interval = some "yearly" then some .UnsupportedRecurrence
  else some (.UnknownRecurrenceKind e.interval)

/-- The incompleteness condition exactly as claim C3 words it, with the
start and end comparison against the now-at-construction sentinel read as a
comparison of instants (time values): name, description, timezone or
location empty, recurrence interval 0, or the start or end instant equal to
the sentinel instant. -/
def claimIncompleteSpec (e : EventDetails) (sentinelMs : Int) : Bool :=
  e.eventName == "" || e.description == some "" || e.timezone == some "" ||
  e.eventLocation == some "" || jsNumEqInt e.frequency 0 ||
  e.startTime.ms == sentinelMs || e.endTime.ms == sentinelMs

/-- A concrete timezone database for the concrete evaluations: three
recognized zones at fixed offsets and Amsterdam as the system default. -/
def sampleDB : TZDB where
  recognized z := z == "Europe/Berlin" || z == "Europe/Amsterdam" || z == "UTC"
  offsetAtLocal z _ := if z == "UTC" then 0 else 60
  offsetAtInstant z _ := if z == "UTC" then 0 else 60
  defaultZone := "Europe/Amsterdam"
  default_recognized := rfl

/-- An otherwise-valid weekly specification used by the concrete
evaluations; its start instant value 1000 doubles as a "sentinel equal"
witness because the fresh check date below carries the same value. -/
def sampleWeekly : EventDetails where
  eventName := "Standup"
  startTime := ⟨1000, 0⟩
  endTime := ⟨2000, 1⟩
  timezone := some "Europe/Berlin"
  eventLocation := some "Office"
  description := some "Daily sync"
  interval := some "weekly"
  frequency := some 1

/-- The date allocated by the completeness check in the concrete
evaluations: a fresh identity whose time value equals the start instant of
`sampleWeekly`. -/
def sampleFresh : JSDate := ⟨1000, 99⟩

/-- `sampleWeekly` with kind monthly. -/
def sampleMonthly : EventDetails := { sampleWeekly with interval := some "monthly" }

/-- `sampleWeekly` with recurrence interval 0. -/
def sampleWeeklyZero : EventDetails := { sampleWeekly with frequency := some 0 }

/-- `sampleWeekly` with recurrence interval 5. -/
def sampleWeeklyFive : EventDetails := { sampleWeekly with frequency := some 5 }

/-! ### Helper lemmas -/

theorem checkTimeInPast_eq_false (now : Int) (t : JSDate) :
    checkTimeInPast now t = false ↔ now < t.ms := by
  unfold checkTimeInPast
  split_ifs with h <;> simp [h]

theorem checkTimeInPast_eq_true (now : Int) (t : JSDate) :
    checkTimeInPast now t = true ↔ t.ms ≤ now := by
  unfold checkTimeInPast
  split_ifs with h <;> simp <;> omega

theorem startTimeBeforeEndTime_eq_false (s e : JSDate) :
    startTimeBeforeEndTime s e = false ↔ s.ms < e.ms := by
  simp [startTimeBeforeEndTime]

theorem startTimeBeforeEndTime_eq_true (s e : JSDate) :
    startTimeBeforeEndTime s e = true ↔ e.ms ≤ s.ms := by
  simp [startTimeBeforeEndTime]

theorem jsGetDay_lt (srvOff : Int) (d : JSDate) : jsGetDay srvOff d < 7 := by
  unfold jsGetDay
  omega

theorem getWeekdayNameFromDate_ok (srvOff : Int) (d : JSDate)
    (h : jsGetDay srvOff d ≠ 1) :
    ∃ w, getWeekdayNameFromDate srvOff d = .ok w := by
  unfold getWeekdayNameFromDate
  have h7 := jsGetDay_lt srvOff d
  set j := jsGetDay srvOff d with hj
  interval_cases j
  · exact ⟨6, rfl⟩
  · exact absurd rfl h
  · exact ⟨1, rfl⟩
  · exact ⟨2, rfl⟩
  · exact ⟨3, rfl⟩
  · exact ⟨4, rfl⟩
  · exact ⟨5, rfl⟩

theorem getWeekdayNameFromDate_monday (srvOff : Int) (d : JSDate)
    (h : jsGetDay srvOff d = 1) :
    getWeekdayNameFromDate srvOff d = .error .invalidWeekdayIndex := by
  unfold getWeekdayNameFromDate
  rw [h]
  rfl

theorem both_future_of_or_false {now1 now2 : Int} {s e : JSDate}
    (h : (checkTimeInPast now1 s || checkTimeInPast now2 e) = false) :
    now1 < s.ms ∧ now2 < e.ms := by
  rw [Bool.or_eq_false_iff] at h
  exact ⟨(checkTimeInPast_eq_false _ _).mp h.1, (checkTimeInPast_eq_false _ _).mp h.2⟩

theorem jsNumEqInt_eq_true {x : JSNum} {n : Int} : jsNumEqInt x n = true ↔ x = some n := by
  cases x <;> simp [jsNumEqInt]

theorem jsNumEqInt_eq_false {x : JSNum} {n : Int} : jsNumEqInt x n = false ↔ x ≠ some n := by
  cases x <;> simp [jsNumEqInt]

theorem jsDateEq_eq_false {a b : JSDate} : jsDateEq a b = false ↔ a.objId ≠ b.objId := by
  simp [jsDateEq]

/-! ### Calendar inversion -/

theorem findYear_exact (k : Nat) : ∀ fuel y r, r < daysInYear (y + k) → k < fuel →
    findYear fuel y (sumYears y k + r) = (y + k, r) := by
  induction k with
  | zero =>
    intro fuel y r hr hf
    cases fuel with
    | zero => omega
    | succ f =>
      simp only [findYear, sumYears, Nat.zero_add]
      rw [if_pos (by simpa using hr)]
      simp
  | succ k ih =>
    intro fuel y r hr hf
    cases fuel with
    | zero => omega
    | succ f =>
      have hge : daysInYear y ≤ sumYears y (k + 1) + r := by
        simp only [sumYears]
        omega
      simp only [findYear]
      rw [if_neg (by omega)]
      have hrw : sumYears y (k + 1) + r - daysInYear y = sumYears (y + 1) k + r := by
        simp only [sumYears]
        omega
      rw [hrw]
      have hr' : r < daysInYear (y + 1 + k) := by
        have : y + 1 + k = y + (k + 1) := by omega
        rw [this]
        exact hr
      rw [ih f (y + 1) r hr' (by omega)]
      have : y + 1 + k = y + (k + 1) := by omega
      rw [this]

theorem findMonth_exact (k : Nat) : ∀ fuel y m r, r < daysInMonth y (m + k) → k < fuel →
    findMonth fuel y m (sumMonths y m k + r) = (m + k, r) := by
  induction k with
  | zero =>
    intro fuel y m r hr hf
    cases fuel with
    | zero => omega
    | succ f =>
      simp only [findMonth, sumMonths, Nat.zero_add]
      rw [if_pos (by simpa using hr)]
      simp
  | succ k ih =>
    intro fuel y m r hr hf
    cases fuel with
    | zero => omega
    | succ f =>
      have hge : daysInMonth y m ≤ sumMonths y m (k + 1) + r := by
        simp only [sumMonths]
        omega
      simp only [findMonth]
      rw [if_neg (by omega)]
      have hrw : sumMonths y m (k + 1) + r - daysInMonth y m = sumMonths y (m + 1) k + r := by
        simp only [sumMonths]
        omega
      rw [hrw]
      have hr' : r < daysInMonth y (m + 1 + k) := by
        have : m + 1 + k = m + (k + 1) := by omega
        rw [this]
        exact hr
      rw [ih f y (m + 1) r hr' (by omega)]
      have : m + 1 + k = m + (k + 1) := by omega
      rw [this]

theorem sumYears_succ_right (k : Nat) : ∀ y, sumYears y (k + 1) = sumYears y k + daysInYear (y + k) := by
  induction k with
  | zero =>
    intro y
    simp [sumYears]
  | succ k ih =>
    intro y
    have h1 : sumYears y (k + 1 + 1) = daysInYear y + sumYears (y + 1) (k + 1) := rfl
    rw [h1, ih (y + 1)]
    have : y + 1 + k = y + (k + 1) := by omega
    rw [this]
    simp only [sumYears]
    omega

theorem daysBeforeYear_eq_sumYears (y : Nat) : daysBeforeYear y = sumYears 0 y := by
  induction y with
  | zero => rfl
  | succ y ih =>
    rw [daysBeforeYear, ih, sumYears_succ_right]
    simp

theorem sumMonths_succ_right (k : Nat) : ∀ y m, sumMonths y m (k + 1) = sumMonths y m k + daysInMonth y (m + k) := by
  induction k with
  | zero =>
    intro y m
    simp [sumMonths]
  | succ k ih =>
    intro y m
    have h1 : sumMonths y m (k + 1 + 1) = daysInMonth y m + sumMonths y (m + 1) (k + 1) := rfl
    rw [h1, ih y (m + 1)]
    have : m + 1 + k = m + (k + 1) := by omega
    rw [this]
    simp only [sumMonths]
    omega

theorem daysBeforeMonth_eq_sumMonths (y : Nat) :
    ∀ j, daysBeforeMonth y (j + 1) = sumMonths y 1 j := by
  intro j
  induction j with
  | zero => rfl
  | succ j ih =>
    have h1 : daysBeforeMonth y (j + 2) = daysBeforeMonth y (j + 1) + daysInMonth y (j + 1) := rfl
    rw [h1, ih, sumMonths_succ_right]
    have : 1 + j = j + 1 := by omega
    rw [this]

theorem le_daysBeforeYear (y : Nat) : y ≤ daysBeforeYear y := by
  induction y with
  | zero => simp [daysBeforeYear]
  | succ y ih =>
    rw [daysBeforeYear]
    unfold daysInYear
    split_ifs <;> omega

theorem daysBeforeMonth_add_le (y m : Nat) (h1 : 1 ≤ m) (h2 : m ≤ 12) :
    daysBeforeMonth y m + daysInMonth y m ≤ daysInYear y := by
  cases h : isLeap y <;> interval_cases m <;>
    simp_all [daysBeforeMonth, daysInMonth, daysInYear]

theorem civilFromDays_daysFromCivil (y m d : Nat) (h1 : 1 ≤ m) (h2 : m ≤ 12)
    (h3 : 1 ≤ d) (h4 : d ≤ daysInMonth y m) :
    civilFromDays (daysFromCivil y m d) = (y, m, d) := by
  have hr : daysBeforeMonth y m + (d - 1) < daysInYear y := by
    have := daysBeforeMonth_add_le y m h1 h2
    omega
  have hy : findYear (daysFromCivil y m d + 1) 0 (daysFromCivil y m d) =
      (y, daysBeforeMonth y m + (d - 1)) := by
    have hfuel : y < daysFromCivil y m d + 1 := by
      have := le_daysBeforeYear y
      unfold daysFromCivil
      omega
    have hthis := findYear_exact y (daysFromCivil y m d + 1) 0 (daysBeforeMonth y m + (d - 1))
      (by simpa using hr) hfuel
    rw [Nat.zero_add] at hthis
    have heq : sumYears 0 y + (daysBeforeMonth y m + (d - 1)) = daysFromCivil y m d := by
      unfold daysFromCivil
      rw [daysBeforeYear_eq_sumYears]
      omega
    rw [heq] at hthis
    exact hthis
  have hm : findMonth 12 y 1 (daysBeforeMonth y m + (d - 1)) = (m, d - 1) := by
    have hd : d - 1 < daysInMonth y (1 + (m - 1)) := by
      rw [show 1 + (m - 1) = m from by omega]
      omega
    have := findMonth_exact (m - 1) 12 y 1 (d - 1) hd (by omega)
    rw [show sumMonths y 1 (m - 1) = daysBeforeMonth y m from ?_] at this
    · rw [show (1 : Nat) + (m - 1) = m from by omega] at this
      exact this
    · rw [show m = (m - 1) + 1 from by omega]
      rw [daysBeforeMonth_eq_sumMonths]
      rw [show (m - 1) + 1 - 1 = m - 1 from by omega]
  unfold civilFromDays
  rw [hy]
  simp only
  rw [hm]
  simp only
  rw [show d - 1 + 1 = d from by omega]

/-! ### Digit printing -/

theorem digitVal_le {c : Char} (h : isDigitChar c = true) : digitVal c ≤ 9 := by
  unfold isDigitChar at h
  unfold digitVal
  simp only [Bool.and_eq_true, decide_eq_true_eq] at h
  omega

theorem digitChar_digitVal {c : Char} (h : isDigitChar c = true) :
    digitChar (digitVal c) = c := by
  unfold isDigitChar at h
  simp only [Bool.and_eq_true, decide_eq_true_eq] at h
  unfold digitChar digitVal
  rw [show 48 + (c.toNat - 48) = c.toNat from by omega]
  exact Char.ofNat_toNat c

theorem pad2_digits {a b : Nat} (ha : a ≤ 9) (hb : b ≤ 9) :
    pad2 (10 * a + b) = [digitChar a, digitChar b] := by
  unfold pad2
  rw [show (10 * a + b) / 10 = a from by omega, show (10 * a + b) % 10 = b from by omega]

theorem pad4_digits {a b c d : Nat} (ha : a ≤ 9) (hb : b ≤ 9) (hc : c ≤ 9) (hd : d ≤ 9) :
    pad4 (1000 * a + 100 * b + 10 * c + d) = [digitChar a, digitChar b, digitChar c, digitChar d] := by
  unfold pad4
  rw [show (1000 * a + 100 * b + 10 * c + d) / 1000 = a from by omega,
      show (1000 * a + 100 * b + 10 * c + d) / 100 % 10 = b from by omega,
      show (1000 * a + 100 * b + 10 * c + d) / 10 % 10 = c from by omega,
      show (1000 * a + 100 * b + 10 * c + d) % 10 = d from by omega]

theorem printWallClock_matchDateShape {s : String} {w : WallClock}
    (h : matchDateShape s = some w) : printWallClock w = s := by
  obtain ⟨data⟩ := s
  unfold matchDateShape at h
  split at h
  case h_2 => exact absurd h (by simp)
  case h_1 cy1 cy2 cy3 cy4 cm1 cm2 cd1 cd2 ch1 ch2 cn1 cn2 heq =>
    split_ifs at h with hd
    · injection h with h
      subst h
      have hdata : data =
          [cy1, cy2, cy3, cy4, '-', cm1, cm2, '-', cd1, cd2, ' ', ch1, ch2, ':', cn1, cn2] :=
        heq
      subst hdata
      simp only [Bool.and_eq_true] at hd
      obtain ⟨⟨⟨⟨⟨⟨⟨⟨⟨⟨⟨q1, q2⟩, q3⟩, q4⟩, q5⟩, q6⟩, q7⟩, q8⟩, q9⟩, q10⟩, q11⟩, q12⟩ := hd
      unfold printWallClock
      simp only
      rw [pad4_digits (digitVal_le q1) (digitVal_le q2) (digitVal_le q3) (digitVal_le q4),
          pad2_digits (digitVal_le q5) (digitVal_le q6),
          pad2_digits (digitVal_le q7) (digitVal_le q8),
          pad2_digits (digitVal_le q9) (digitVal_le q10),
          pad2_digits (digitVal_le q11) (digitVal_le q12)]
      rw [digitChar_digitVal q1, digitChar_digitVal q2, digitChar_digitVal q3,
          digitChar_digitVal q4, digitChar_digitVal q5, digitChar_digitVal q6,
          digitChar_digitVal q7, digitChar_digitVal q8, digitChar_digitVal q9,
          digitChar_digitVal q10, digitChar_digitVal q11, digitChar_digitVal q12]
      rfl

/-! ### The claims -/

/-- C2: extraction is not exception-free: an input line with fewer
delimiter-separated fields than the date positions reaches
`parseCustomDate` with an undefined argument and the `undefined.match` call
throws a TypeError, in every mode, instead of returning the distinguished
EmptySpecification. -/
theorem c2_extraction_throws_on_short_input :
    extractEventdetails sampleDB "A" "New Schedule" 0 0 = .error .typeError ∧
    extractEventdetails sampleDB "A" "New Event" 0 0 = .error .typeError ∧
    extractEventdetails sampleDB "A" "bogus mode" 0 0 = .error .typeError :=
  ⟨rfl, rfl, rfl⟩

/-- C7: the schedule pipeline runs its checks in the fixed order
completeness, temporal position, ordering, recurrence resolution, and an
input surfaces a rejection reason exactly when some check fails, namely the
reason of the first failing check in that order. -/
theorem c7_fixed_check_order (e : EventDetails) (fresh : JSDate)
    (now1 now2 srvOff : Int) (r : Reason) :
    validateSchedule e fresh now1 now2 srvOff = .rejected r ↔
      specFirstFailingReason e fresh now1 now2 = some r := by
  unfold validateSchedule specFirstFailingReason
  split_ifs <;> try simp
  cases h : getWeekdayNameFromDate srvOff e.startTime <;> simp

/-- Concrete discharge of `c7_fixed_check_order` at a specification failing
both the completeness check (interval 0) and the ordering check. -/
theorem c7_fixed_check_order_witness :
    validateSchedule
        { sampleWeeklyZero with startTime := ⟨2000, 0⟩, endTime := ⟨1000, 1⟩ }
        sampleFresh 500 500 0 = .rejected .IncompleteSpecification ↔
      specFirstFailingReason
        { sampleWeeklyZero with startTime := ⟨2000, 0⟩, endTime := ⟨1000, 1⟩ }
        sampleFresh 500 500 = some .IncompleteSpecification :=
  c7_fixed_check_order
    { sampleWeeklyZero with startTime := ⟨2000, 0⟩, endTime := ⟨1000, 1⟩ }
    sampleFresh 500 500 0 .IncompleteSpecification

/-- C8: `parseCustomDate` is total and returns the failure value `null` for
every date text not matching the `YYYY-MM-DD HH:MM` shape and for every
text paired with an unrecognized timezone identifier; it never throws. -/
theorem c8_parse_failure_is_null (db : TZDB) (s : String) (tz : Option String)
    (z : String) :
    (matchDateShape s = none → parseCustomDate db s tz = none) ∧
    (tz = some z → db.recognized z = false → parseCustomDate db s tz = none) := by
  constructor
  · intro h
    simp [parseCustomDate, h]
  · rintro rfl h
    unfold parseCustomDate
    cases hm : matchDateShape s with
    | none => rfl
    | some w => simp [Option.getD, h]

/-- Concrete discharge of `c8_parse_failure_is_null`: a malformed text and an
unrecognized zone both evaluate to `null`. -/
theorem c8_parse_failure_is_null_witness :
    matchDateShape "not a date" = none ∧
    parseCustomDate sampleDB "not a date" (some "Europe/Berlin") = none ∧
    sampleDB.recognized "Mars/Olympus" = false ∧
    parseCustomDate sampleDB "2025-06-18 14:30" (some "Mars/Olympus") = none :=
  ⟨by decide,
   (c8_parse_failure_is_null sampleDB "not a date" (some "Europe/Berlin")
      "Europe/Berlin").1 (by decide),
   by decide,
   (c8_parse_failure_is_null sampleDB "2025-06-18 14:30" (some "Mars/Olympus")
      "Mars/Olympus").2 rfl (by decide)⟩

/-- C4: a recurring specification with kind monthly or yearly never produces
an event specification, and whenever it passes the completeness, temporal
and ordering checks the surfaced reason is UnsupportedRecurrence. -/
theorem c4_unsupported_recurrence_rejected (e : EventDetails) (fresh : JSDate)
    (now1 now2 srvOff : Int)
    (h : e.interval = some "monthly" ∨ e.interval = some "yearly") :
    (∀ c, validateSchedule e fresh now1 now2 srvOff ≠ .created c) ∧
    (scheduleHasEmptyValues e fresh = false →
      checkTimeInPast now1 e.startTime = false →
      checkTimeInPast now2 e.endTime = false →
      startTimeBeforeEndTime e.startTime e.endTime = false →
      validateSchedule e fresh now1 now2 srvOff = .rejected .UnsupportedRecurrence) := by
  constructor
  · intro c
    unfold validateSchedule
    rcases h with h | h <;> split_ifs <;> simp_all
  · intro h1 h2 h3 h4
    unfold validateSchedule
    rcases h with h | h <;> simp [h1, h2, h3, h4, h]

/-- Concrete discharge of `c4_unsupported_recurrence_rejected` at an
otherwise-valid monthly specification. -/
theorem c4_unsupported_recurrence_rejected_witness :
    sampleMonthly.interval = some "monthly" ∧
    validateSchedule sampleMonthly sampleFresh 500 500 0 =
      .rejected .UnsupportedRecurrence :=
  ⟨rfl,
   (c4_unsupported_recurrence_rejected sampleMonthly sampleFresh 500 500 0
      (Or.inl rfl)).2 (by decide) (by decide) (by decide) (by decide)⟩

/-- C5: every accepted specification satisfies start strictly before end
(and the produced event carries exactly those instants), and a specification
passing the earlier checks whose start instant is equal to or later than its
end instant is rejected with EndBeforeStart. -/
theorem c5_ordering_invariant (e : EventDetails) (fresh : JSDate)
    (now1 now2 srvOff : Int) :
    (∀ c, validateSchedule e fresh now1 now2 srvOff = .created c →
      e.startTime.ms < e.endTime.ms ∧ c.startMs = e.startTime.ms ∧
        c.endMs = e.endTime.ms) ∧
    (scheduleHasEmptyValues e fresh = false →
      checkTimeInPast now1 e.startTime = false →
      checkTimeInPast now2 e.endTime = false →
      e.endTime.ms ≤ e.startTime.ms →
      validateSchedule e fresh now1 now2 srvOff = .rejected .EndBeforeStart) := by
  constructor
  · intro c hc
    unfold validateSchedule at hc
    split_ifs at hc with h1 h2 h3 h4 h5 h6 h7 h8
    all_goals try exact ScheduleOutcome.noConfusion hc
    all_goals rw [Bool.not_eq_true, startTimeBeforeEndTime_eq_false] at h3
    all_goals try (cases hw : getWeekdayNameFromDate srvOff e.startTime <;> rw [hw] at hc)
    all_goals try exact ScheduleOutcome.noConfusion hc
    all_goals injection hc with h
    all_goals subst h
    all_goals exact ⟨h3, rfl, rfl⟩
  · intro h1 h2 h3 h4
    unfold validateSchedule
    simp [h1, h2, h3, startTimeBeforeEndTime_eq_true, h4]

/-- Concrete discharge of `c5_ordering_invariant`: an accepted weekly
specification with start 1000 and end 2000, and the reversed one rejected
with EndBeforeStart. -/
theorem c5_ordering_invariant_witness :
    validateSchedule sampleWeekly sampleFresh 500 500 0 =
      .created ⟨"Standup", 1000, 2000, "weekly", some 1, [3]⟩ ∧
    sampleWeekly.startTime.ms < sampleWeekly.endTime.ms ∧
    validateSchedule { sampleWeekly with startTime := ⟨2000, 0⟩, endTime := ⟨1000, 1⟩ }
        sampleFresh 500 500 0 = .rejected .EndBeforeStart :=
  ⟨by decide,
   ((c5_ordering_invariant sampleWeekly sampleFresh 500 500 0).1
      ⟨"Standup", 1000, 2000, "weekly", some 1, [3]⟩ (by decide)).1,
   (c5_ordering_invariant { sampleWeekly with startTime := ⟨2000, 0⟩, endTime := ⟨1000, 1⟩ }
      sampleFresh 500 500 0).2 (by decide) (by decide) (by decide) (by decide)⟩

/-- C6: every accepted specification has both instants strictly later than
the respective current-time reading taken at validation, and a complete
specification with either instant equal to or earlier than its reading is
rejected with TimeInPast. -/
theorem c6_future_only_invariant (e : EventDetails) (fresh : JSDate)
    (now1 now2 srvOff : Int) :
    (∀ c, validateSchedule e fresh now1 now2 srvOff = .created c →
      now1 < e.startTime.ms ∧ now2 < e.endTime.ms) ∧
    (scheduleHasEmptyValues e fresh = false →
      (e.startTime.ms ≤ now1 ∨ e.endTime.ms ≤ now2) →
      validateSchedule e fresh now1 now2 srvOff = .rejected .TimeInPast) := by
  constructor
  · intro c hc
    unfold validateSchedule at hc
    split_ifs at hc with h1 h2 h3 h4 h5 h6 h7 h8
    all_goals try exact ScheduleOutcome.noConfusion hc
    all_goals try (cases hw : getWeekdayNameFromDate srvOff e.startTime <;> rw [hw] at hc)
    all_goals exact both_future_of_or_false (Bool.not_eq_true _ ▸ h2)
  · intro h1 h2
    unfold validateSchedule
    have hor : (checkTimeInPast now1 e.startTime || checkTimeInPast now2 e.endTime) = true := by
      rcases h2 with h2 | h2
      · simp [checkTimeInPast_eq_true, h2]
      · simp [checkTimeInPast_eq_true, h2]
    simp [h1, hor]

/-- Concrete discharge of `c6_future_only_invariant`: the accepted sample is
strictly in the future of the validation readings, and the same input
validated at a later reading is rejected with TimeInPast. -/
theorem c6_future_only_invariant_witness :
    (∃ c, validateSchedule sampleWeekly sampleFresh 500 500 0 = .created c) ∧
    (500 : Int) < sampleWeekly.startTime.ms ∧
    validateSchedule sampleWeekly sampleFresh 1500 1500 0 = .rejected .TimeInPast :=
  ⟨⟨⟨"Standup", 1000, 2000, "weekly", some 1, [3]⟩, by decide⟩,
   ((c6_future_only_invariant sampleWeekly sampleFresh 500 500 0).1
      ⟨"Standup", 1000, 2000, "weekly", some 1, [3]⟩ (by decide)).1,
   (c6_future_only_invariant sampleWeekly sampleFresh 1500 1500 0).2 (by decide)
     (Or.inl (by decide))⟩

/-- C1 (amended): for an otherwise-valid weekly recurring specification the
pipeline accepts interval 1 and 2 except when the start instant falls on a
Monday of the runtime local zone, where the falsy enum value 0 of Monday
makes the weekday lookup throw and the outcome is the caught crash; it
rejects intervals greater than 2 and negative intervals with
InvalidWeeklyInterval; and it rejects interval 0 with
IncompleteSpecification already at the completeness check. -/
theorem c1_weekly_interval_amended (e : EventDetails) (fresh : JSDate)
    (now1 now2 srvOff : Int)
    (hkind : e.interval = some "weekly")
    (hname : e.eventName ≠ "")
    (hdesc : e.description ≠ some "")
    (hloc : e.eventLocation ≠ some "")
    (htz : e.timezone ≠ some "")
    (hfs : jsDateEq e.startTime fresh = false)
    (hfe : jsDateEq e.endTime fresh = false)
    (hp1 : checkTimeInPast now1 e.startTime = false)
    (hp2 : checkTimeInPast now2 e.endTime = false)
    (hord : startTimeBeforeEndTime e.startTime e.endTime = false) :
    ((e.frequency = some 1 ∨ e.frequency = some 2) →
      (jsGetDay srvOff e.startTime ≠ 1 →
        ∃ w, validateSchedule e fresh now1 now2 srvOff =
          .created ⟨e.eventName, e.startTime.ms, e.endTime.ms, "weekly",
                    e.frequency, [w]⟩) ∧
      (jsGetDay srvOff e.startTime = 1 →
        validateSchedule e fresh now1 now2 srvOff = .crashed .invalidWeekdayIndex)) ∧
    (∀ k : Int, e.frequency = some k → (2 < k ∨ k < 0) →
      validateSchedule e fresh now1 now2 srvOff = .rejected .InvalidWeeklyInterval) ∧
    (e.frequency = some 0 →
      validateSchedule e fresh now1 now2 srvOff = .rejected .IncompleteSpecification) := by
  have hinc : jsNumEqInt e.frequency 0 = false → scheduleHasEmptyValues e fresh = false := by
    intro hk
    unfold scheduleHasEmptyValues eventHasEmptyValues
    simp [hname, hdesc, hloc, htz, hfs, hfe, hk, hkind]
  refine ⟨?_, ?_, ?_⟩
  · intro hfreq
    have hk : jsNumEqInt e.frequency 0 = false := by
      rcases hfreq with h | h <;> simp [jsNumEqInt, h]
    have hbound : (jsNumGtInt e.frequency 2 || jsNumLtInt e.frequency 0) = false := by
      rcases hfreq with h | h <;> simp [jsNumGtInt, jsNumLtInt, h]
    constructor
    · intro hmon
      obtain ⟨w, hw⟩ := getWeekdayNameFromDate_ok srvOff e.startTime hmon
      refine ⟨w, ?_⟩
      unfold validateSchedule
      simp [hinc hk, hp1, hp2, hord, hkind, hbound, hw]
    · intro hmon
      unfold validateSchedule
      simp [hinc hk, hp1, hp2, hord, hkind, hbound,
            getWeekdayNameFromDate_monday srvOff e.startTime hmon]
  · intro k hk hrange
    have hkne : jsNumEqInt e.frequency 0 = false := by
      rw [jsNumEqInt_eq_false, hk]
      simp
      omega
    have hbound : (jsNumGtInt e.frequency 2 || jsNumLtInt e.frequency 0) = true := by
      rcases hrange with h | h <;> simp [jsNumGtInt, jsNumLtInt, hk] <;> omega
    unfold validateSchedule
    simp [hinc hkne, hp1, hp2, hord, hkind, hbound]
  · intro hk
    have hemp : scheduleHasEmptyValues e fresh = true := by
      unfold scheduleHasEmptyValues eventHasEmptyValues
      simp [jsNumEqInt, hk]
    unfold validateSchedule
    simp [hemp]

/-- C1 counterexample: an otherwise-valid weekly specification with interval
0 is rejected, but with reason IncompleteSpecification from the completeness
check, not with the claimed InvalidWeeklyInterval. -/
theorem c1_zero_interval_counterexample :
    validateSchedule sampleWeeklyZero sampleFresh 500 500 0 =
      .rejected .IncompleteSpecification ∧
    validateSchedule sampleWeeklyZero sampleFresh 500 500 0 ≠
      .rejected .InvalidWeeklyInterval := by
  decide

/-- Concrete discharge of `c1_weekly_interval_amended`: interval 1 accepted
on a non-Monday start, interval 5 rejected with InvalidWeeklyInterval,
interval 0 rejected with IncompleteSpecification. -/
theorem c1_weekly_interval_amended_witness :
    (∃ w, validateSchedule sampleWeekly sampleFresh 500 500 0 =
      .created ⟨sampleWeekly.eventName, sampleWeekly.startTime.ms,
                sampleWeekly.endTime.ms, "weekly", sampleWeekly.frequency, [w]⟩) ∧
    validateSchedule sampleWeeklyFive sampleFresh 500 500 0 =
      .rejected .InvalidWeeklyInterval ∧
    validateSchedule sampleWeeklyZero sampleFresh 500 500 0 =
      .rejected .IncompleteSpecification :=
  ⟨((c1_weekly_interval_amended sampleWeekly sampleFresh 500 500 0 rfl (by decide)
      (by decide) (by decide) (by decide) (by decide) (by decide) (by decide)
      (by decide) (by decide)).1 (Or.inl rfl)).1 (by decide),
   (c1_weekly_interval_amended sampleWeeklyFive sampleFresh 500 500 0 rfl (by decide)
      (by decide) (by decide) (by decide) (by decide) (by decide) (by decide)
      (by decide) (by decide)).2.1 5 rfl (Or.inl (by decide)),
   (c1_weekly_interval_amended sampleWeeklyZero sampleFresh 500 500 0 rfl (by decide)
      (by decide) (by decide) (by decide) (by decide) (by decide) (by decide)
      (by decide) (by decide)).2.2 rfl⟩

/-- C3 counterexample: a specification whose start instant value equals the
now-at-construction sentinel value is classified complete by the code,
because the comparison is JS object identity, refuting the claimed
equivalence; the pipeline accordingly does not reject it as incomplete. -/
theorem c3_sentinel_counterexample :
    claimIncompleteSpec sampleWeekly 1000 = true ∧
    eventHasEmptyValues sampleWeekly sampleFresh = false ∧
    validateSchedule sampleWeekly sampleFresh 500 500 0 ≠
      .rejected .IncompleteSpecification := by
  decide

/-- C3 (amended): with the check date freshly allocated, the completeness
check classifies a specification as incomplete exactly when name,
description, timezone, location or recurrence kind is the empty string or
the recurrence interval equals 0; the two sentinel comparisons are JS object
identity against the just-allocated date and never hold, and any incomplete
specification is rejected with IncompleteSpecification. -/
theorem c3_completeness_amended (e : EventDetails) (fresh : JSDate)
    (now1 now2 srvOff : Int)
    (hfs : fresh.objId ≠ e.startTime.objId)
    (hfe : fresh.objId ≠ e.endTime.objId) :
    (eventHasEmptyValues e fresh = true ↔
      (e.eventName = "" ∨ e.description = some "" ∨ e.timezone = some "" ∨
       e.eventLocation = some "" ∨ e.interval = some "" ∨ e.frequency = some 0)) ∧
    (eventHasEmptyValues e fresh = true →
      validateSchedule e fresh now1 now2 srvOff = .rejected .IncompleteSpecification) := by
  have hds : jsDateEq e.startTime fresh = false :=
    jsDateEq_eq_false.mpr fun h => hfs h.symm
  have hde : jsDateEq e.endTime fresh = false :=
    jsDateEq_eq_false.mpr fun h => hfe h.symm
  constructor
  · unfold eventHasEmptyValues
    simp [hds, hde, jsNumEqInt_eq_true]
    tauto
  · intro h
    unfold validateSchedule scheduleHasEmptyValues
    simp [h]

/-- Concrete discharge of `c3_completeness_amended` at the sample
specification and sample fresh date. -/
theorem c3_completeness_amended_witness :
    sampleFresh.objId ≠ sampleWeekly.startTime.objId ∧
    (eventHasEmptyValues sampleWeekly sampleFresh = true ↔
      (sampleWeekly.eventName = "" ∨ sampleWeekly.description = some "" ∨
       sampleWeekly.timezone = some "" ∨ sampleWeekly.eventLocation = some "" ∨
       sampleWeekly.interval = some "" ∨ sampleWeekly.frequency = some 0)) :=
  ⟨by decide,
   (c3_completeness_amended sampleWeekly sampleFresh 500 500 0 (by decide)
      (by decide)).1⟩

theorem parseCustomDate_some (db : TZDB) (s : String) (tz : Option String)
    (w : WallClock) (hm : matchDateShape s = some w)
    (hz : db.recognized (tz.getD db.defaultZone) = true)
    (hv : validWallClock w = true) :
    parseCustomDate db s tz =
      some ((wallClockMinutes w -
        db.offsetAtLocal (tz.getD db.defaultZone) (wallClockMinutes w)) * 60000) := by
  unfold parseCustomDate
  rw [hm]
  simp [hz, hv]

/-- C9: resolving a well-formed, calendar-valid local date-time string in a
recognized zone to an absolute instant and formatting that instant back in
the same zone reproduces the original wall-clock string, whenever the local
time is realized in the zone (the offset interpreting it is also the offset
at the resolved instant). -/
theorem c9_round_trip (db : TZDB) (z s : String) (w : WallClock)
    (hm : matchDateShape s = some w)
    (hz : db.recognized z = true)
    (hv : validWallClock w = true)
    (hr : realizedInZone db z (wallClockMinutes w)) :
    (parseCustomDate db s (some z)).map (formatInstantInZone db z) = some s := by
  have hv' := hv
  unfold validWallClock at hv'
  simp only [Bool.and_eq_true, decide_eq_true_eq] at hv'
  obtain ⟨⟨⟨⟨⟨hm1, hm2⟩, hd1⟩, hd2⟩, hh⟩, hmin⟩ := hv'
  unfold realizedInZone at hr
  rw [parseCustomDate_some db s (some z) w hm (by simpa using hz) hv]
  simp only [Option.getD_some] at hr ⊢
  simp only [Option.map_some']
  refine congrArg some ?_
  simp only [formatInstantInZone]
  have e1 : (wallClockMinutes w - db.offsetAtLocal z (wallClockMinutes w)) * 60000 / 60000
      = wallClockMinutes w - db.offsetAtLocal z (wallClockMinutes w) := by omega
  rw [e1, hr]
  have e15 : wallClockMinutes w - db.offsetAtLocal z (wallClockMinutes w) +
      db.offsetAtLocal z (wallClockMinutes w) = wallClockMinutes w := by ring
  rw [e15]
  have e2 : wallClockMinutes w + ((epochDays * 1440 : Nat) : Int) =
      ((daysFromCivil w.year w.month w.day * 1440 + (w.hour * 60 + w.minute) : Nat) : Int) := by
    unfold wallClockMinutes
    push_cast
    ring
  rw [e2]
  have hM : w.hour * 60 + w.minute < 1440 := by omega
  have e3 : ((daysFromCivil w.year w.month w.day * 1440 + (w.hour * 60 + w.minute) : Nat) : Int) / 1440
      = ((daysFromCivil w.year w.month w.day : Nat) : Int) := by
    push_cast
    omega
  have e4 : ((daysFromCivil w.year w.month w.day * 1440 + (w.hour * 60 + w.minute) : Nat) : Int) % 1440
      = ((w.hour * 60 + w.minute : Nat) : Int) := by
    push_cast
    omega
  rw [e3, e4]
  simp only [Int.toNat_natCast]
  have e5 : (w.hour * 60 + w.minute) / 60 = w.hour := by omega
  have e6 : (w.hour * 60 + w.minute) % 60 = w.minute := by omega
  rw [e5, e6]
  rw [civilFromDays_daysFromCivil w.year w.month w.day hm1 hm2 hd1 hd2]
  exact printWallClock_matchDateShape hm

/-- Concrete discharge of `c9_round_trip`: the wall clock 1970-01-02 03:04
in the fixed-offset Berlin zone of the sample database round-trips. -/
theorem c9_round_trip_witness :
    matchDateShape "1970-01-02 03:04" = some ⟨1970, 1, 2, 3, 4⟩ ∧
    sampleDB.recognized "Europe/Berlin" = true ∧
    validWallClock ⟨1970, 1, 2, 3, 4⟩ = true ∧
    (parseCustomDate sampleDB "1970-01-02 03:04" (some "Europe/Berlin")).map
      (formatInstantInZone sampleDB "Europe/Berlin") = some "1970-01-02 03:04" :=
  ⟨by decide, by decide, by decide,
   c9_round_trip sampleDB "Europe/Berlin" "1970-01-02 03:04" ⟨1970, 1, 2, 3, 4⟩
     (by decide) (by decide) (by decide) rfl⟩

end EventManagerBot
